import Mathlib

/-!
Verification development for the GitHub statistics client (`src/github.rs`).

The definitions below are a shallow embedding of the client module:

* `satAdd` / `satMul` model `u64::saturating_add` / `u64::saturating_mul`;
* `Json` models `serde_json::Value` restricted to the shapes the client
  decodes, and the `decode*` functions model the `serde` derive semantics of
  the per-query response structs (absent or `null` at an `Option` field gives
  `none`; an absent required field or a type mismatch is a decode error);
* `graphqlGo` models the retry loop of `GithubClient::graphql`, run against a
  scripted list of already-parsed HTTP responses, recording each sleep (in
  milliseconds) it performs;
* `processNode` / `processPage` / `repoLocPages` model the commit-history
  accumulation loop of `GithubClient::repo_loc` over decoded pages;
  `repoLocRunJson` models the same loop starting from raw JSON responses;
* `totalLoc` models `GithubClient::total_loc`.
-/

/-- Largest value of a Rust `u64`. -/
def u64Max : Nat := 2 ^ 64 - 1

/-- Model of `u64::saturating_add`. -/
def satAdd (a b : Nat) : Nat := min (a + b) u64Max

/-- Model of `u64::saturating_mul`. -/
def satMul (a b : Nat) : Nat := min (a * b) u64Max

/-- Model of `as u32` truncation of a `u64` value. -/
def u32cast (n : Nat) : Nat := n % 2 ^ 32

/-- `LocStats` from `src/github.rs` (three `u64` counters). -/
structure LocStats where
  additions : Nat
  deletions : Nat
  commits : Nat
deriving DecidableEq, Repr

/-- `LocStats::default()`: all counters zero. -/
def LocStats.zero : LocStats := ⟨0, 0, 0⟩

/-- A `LocStats` whose counters are representable as `u64` values. -/
def LocStats.valid (s : LocStats) : Prop :=
  s.additions ≤ u64Max ∧ s.deletions ≤ u64Max ∧ s.commits ≤ u64Max

/-- The per-repository accumulation step of `total_loc` (lines 533-535):
saturating-add each counter of `loc` into `total`. -/
def combine (total loc : LocStats) : LocStats :=
  { additions := satAdd total.additions loc.additions
    deletions := satAdd total.deletions loc.deletions
    commits := satAdd total.commits loc.commits }

/-! ### JSON values and serde-style decoding -/

/-- Model of `serde_json::Value`.  Numbers are integers, which covers every
field the client decodes (all are `u64` in the Rust structs). -/
inductive Json where
  | null
  | bool (b : Bool)
  | num (n : Int)
  | str (s : String)
  | arr (elems : List Json)
  | obj (fields : List (String × Json))

/-- Model of `serde_json::Value::get(key)`: field lookup on an object,
`none` on any other value. -/
def Json.get : Json → String → Option Json
  | .obj fields, key => fields.lookup key
  | _, _ => none

/-- serde decoding of a `u64` from a JSON value: an integer in `u64` range;
anything else is a type mismatch. -/
def decodeU64 : Json → Option Nat
  | .num n => if 0 ≤ n ∧ n < (2 : Int) ^ 64 then some n.toNat else none
  | _ => none

/-- serde decoding of a `String` from a JSON value. -/
def decodeString : Json → Option String
  | .str s => some s
  | _ => none

/-- serde decoding of a `bool` from a JSON value. -/
def decodeBool : Json → Option Bool
  | .bool b => some b
  | _ => none

/-- serde decoding of the elements of a JSON array, in order: every element
must decode, the first failure failing the whole list. -/
def decodeElems (dec : Json → Option α) : List Json → Option (List α)
  | [] => some []
  | j :: rest => do
    let x ← dec j
    let xs ← decodeElems dec rest
    pure (x :: xs)

/-- serde decoding of a `Vec<α>` from a JSON value: every element must
decode. -/
def decodeList (dec : Json → Option α) : Json → Option (List α)
  | .arr elems => decodeElems dec elems
  | _ => none

/-- serde decoding of an `Option<α>` struct field: an absent field or a
`null` value gives `none`; any other value must decode with `dec` (a
mismatch is an error). -/
def decodeOptField (j : Json) (key : String) (dec : Json → Option α) :
    Option (Option α) :=
  match j.get key with
  | none => some none
  | some .null => some none
  | some v => (dec v).map some

/-- serde decoding of a required struct field: the field must be present and
must decode with `dec`. -/
def decodeReqField (j : Json) (key : String) (dec : Json → Option α) :
    Option α :=
  (j.get key).bind dec

/-! ### Typed commit-history page structures (`repo_loc` response shapes) -/

/-- `UserLogin` from `repo_loc`: `login: Option<String>`. -/
structure UserLogin where
  login : Option String
deriving DecidableEq, Repr

/-- `CommitAuthor` from `repo_loc`: `user: Option<UserLogin>`. -/
structure CommitAuthor where
  user : Option UserLogin
deriving DecidableEq, Repr

/-- `HistoryNode` from `repo_loc`: one commit record. -/
structure HistoryNode where
  additions : Option Nat
  deletions : Option Nat
  author : Option CommitAuthor
deriving DecidableEq, Repr

/-- `PageInfo` from `repo_loc`: `hasNextPage` is required, `endCursor`
optional. -/
structure PageInfo where
  has_next_page : Bool
  end_cursor : Option String
deriving DecidableEq, Repr

/-- `CommitHistoryPage` from `repo_loc`: required `pageInfo` plus an optional
list of commit records. -/
structure CommitHistoryPage where
  page_info : PageInfo
  nodes : Option (List HistoryNode)
deriving DecidableEq, Repr

/-- `TargetCommit` from `repo_loc`: `history: Option<CommitHistoryPage>`. -/
structure TargetCommit where
  history : Option CommitHistoryPage
deriving DecidableEq, Repr

/-- `DefaultBranchRef` from `repo_loc`: `target: Option<TargetCommit>`. -/
structure DefaultBranchRef where
  target : Option TargetCommit
deriving DecidableEq, Repr

/-- `RepositoryWrapper` from `repo_loc`:
`default_branch_ref: Option<DefaultBranchRef>` (JSON key
`defaultBranchRef`). -/
structure RepositoryWrapper where
  default_branch_ref : Option DefaultBranchRef
deriving DecidableEq, Repr

/-- `RepoHistoryData` from `repo_loc`: `repository: Option<RepositoryWrapper>`. -/
structure RepoHistoryData where
  repository : Option RepositoryWrapper
deriving DecidableEq, Repr

/-- `RepoHistoryResponse` from `repo_loc`: `data: Option<RepoHistoryData>`. -/
structure RepoHistoryResponse where
  data : Option RepoHistoryData
deriving DecidableEq, Repr

/-- serde decoder for `UserLogin`. -/
def decodeUserLogin (j : Json) : Option UserLogin :=
  match j with
  | .obj _ => do
    let login ← decodeOptField j "login" decodeString
    pure ⟨login⟩
  | _ => none

/-- serde decoder for `CommitAuthor`. -/
def decodeCommitAuthor (j : Json) : Option CommitAuthor :=
  match j with
  | .obj _ => do
    let user ← decodeOptField j "user" decodeUserLogin
    pure ⟨user⟩
  | _ => none

/-- serde decoder for `HistoryNode`. -/
def decodeHistoryNode (j : Json) : Option HistoryNode :=
  match j with
  | .obj _ => do
    let additions ← decodeOptField j "additions" decodeU64
    let deletions ← decodeOptField j "deletions" decodeU64
    let author ← decodeOptField j "author" decodeCommitAuthor
    pure ⟨additions, deletions, author⟩
  | _ => none

/-- serde decoder for `PageInfo` (JSON keys `hasNextPage`, `endCursor`). -/
def decodePageInfo (j : Json) : Option PageInfo :=
  match j with
  | .obj _ => do
    let hnp ← decodeReqField j "hasNextPage" decodeBool
    let ec ← decodeOptField j "endCursor" decodeString
    pure ⟨hnp, ec⟩
  | _ => none

/-- serde decoder for `CommitHistoryPage` (JSON keys `pageInfo`, `nodes`). -/
def decodeCommitHistoryPage (j : Json) : Option CommitHistoryPage :=
  match j with
  | .obj _ => do
    let pi ← decodeReqField j "pageInfo" decodePageInfo
    let nodes ← decodeOptField j "nodes" (decodeList decodeHistoryNode)
    pure ⟨pi, nodes⟩
  | _ => none

/-- serde decoder for `TargetCommit`. -/
def decodeTargetCommit (j : Json) : Option TargetCommit :=
  match j with
  | .obj _ => do
    let history ← decodeOptField j "history" decodeCommitHistoryPage
    pure ⟨history⟩
  | _ => none

/-- serde decoder for `DefaultBranchRef` (JSON key `target`). -/
def decodeDefaultBranchRef (j : Json) : Option DefaultBranchRef :=
  match j with
  | .obj _ => do
    let target ← decodeOptField j "target" decodeTargetCommit
    pure ⟨target⟩
  | _ => none

/-- serde decoder for `RepositoryWrapper` (JSON key `defaultBranchRef`). -/
def decodeRepositoryWrapper (j : Json) : Option RepositoryWrapper :=
  match j with
  | .obj _ => do
    let dbr ← decodeOptField j "defaultBranchRef" decodeDefaultBranchRef
    pure ⟨dbr⟩
  | _ => none

/-- serde decoder for `RepoHistoryData` (JSON key `repository`). -/
def decodeRepoHistoryData (j : Json) : Option RepoHistoryData :=
  match j with
  | .obj _ => do
    let repository ← decodeOptField j "repository" decodeRepositoryWrapper
    pure ⟨repository⟩
  | _ => none

/-- serde decoder for `RepoHistoryResponse` (JSON key `data`). -/
def decodeRepoHistoryResponse (j : Json) : Option RepoHistoryResponse :=
  match j with
  | .obj _ => do
    let data ← decodeOptField j "data" decodeRepoHistoryData
    pure ⟨data⟩
  | _ => none

/-! ### The `repo_loc` accumulation loop -/

/-- The author-login extraction of `repo_loc` (lines 499-503):
`node.author.and_then(user).and_then(login).unwrap_or_default()`. -/
def authorLogin (node : HistoryNode) : String :=
  (((node.author.bind (fun a => a.user)).bind (fun u => u.login)).getD "")

/-- Processing of one commit record (lines 505-511): if the author login
equals the queried username, saturating-add 1 to commits and the record's
additions/deletions (defaulting to 0 when absent) to the totals. -/
def processNode (username : String) (stats : LocStats) (node : HistoryNode) :
    LocStats :=
  if authorLogin node == username then
    { commits := satAdd stats.commits 1
      additions := satAdd stats.additions (node.additions.getD 0)
      deletions := satAdd stats.deletions (node.deletions.getD 0) }
  else stats

/-- Processing of one page (lines 497-513): fold `processNode` over the
page's records, an absent `nodes` list contributing nothing. -/
def processPage (username : String) (stats : LocStats)
    (page : CommitHistoryPage) : LocStats :=
  (page.nodes.getD []).foldl (processNode username) stats

/-- The paging loop of `repo_loc` (lines 446-520) run against the sequence of
decoded pages the server returns on successive requests: each iteration
processes one page, stops when the page reports `hasNextPage = false`, and
otherwise advances the cursor to the page's `endCursor` and continues.
`none` means the scripted sequence ran out before the server reported a
final page. -/
def repoLocPages (username : String) :
    List CommitHistoryPage → LocStats → Option String → Option LocStats
  | [], _, _ => none
  | page :: rest, stats, _cursor =>
    let stats := processPage username stats page
    if page.page_info.has_next_page then
      repoLocPages username rest stats page.page_info.end_cursor
    else
      some stats

/-- Errors of the JSON-level `repo_loc` loop. -/
inductive RepoLocError where
  | scriptExhausted
  | deserializeFailed
  | missingHistory
deriving DecidableEq, Repr

/-- The paging loop of `repo_loc` starting from the raw JSON responses: each
response is deserialized (`serde_json::from_value`, line 484), the
commit-history container is extracted through the optional chain
`data → repository → defaultBranchRef → target → history` (lines 487-495,
its absence is the fatal "Missing commit history" error), and the page is
processed as above. -/
def repoLocRunJson (username : String) :
    List Json → LocStats → Except RepoLocError LocStats
  | [], _ => .error .scriptExhausted
  | j :: rest, stats =>
    match decodeRepoHistoryResponse j with
    | none => .error .deserializeFailed
    | some parsed =>
      match ((((parsed.data.bind (fun d => d.repository)).bind
          (fun r => r.default_branch_ref)).bind
          (fun db => db.target)).bind
          (fun t => t.history)) with
      | none => .error .missingHistory
      | some history =>
        let stats := processPage username stats history
        if history.page_info.has_next_page then
          repoLocRunJson username rest stats
        else
          .ok stats

/-- The commit records of a sequence of pages, in order (absent `nodes`
lists contribute nothing). -/
def pagesNodes (pages : List CommitHistoryPage) : List HistoryNode :=
  pages.foldr (fun p acc => p.nodes.getD [] ++ acc) []

/-- Number of commit records in a list whose author login equals
`username`. -/
def countMatching (username : String) (nodes : List HistoryNode) : Nat :=
  nodes.countP (fun n => authorLogin n == username)

/-- A scripted page sequence is terminal when every page but the last
reports `hasNextPage = true` and the last reports `hasNextPage = false`:
exactly the sequences the paging loop consumes in full. -/
def isTerminalSeq : List CommitHistoryPage → Bool
  | [] => false
  | [p] => !p.page_info.has_next_page
  | p :: rest => p.page_info.has_next_page && isTerminalSeq rest

/-! ### The `graphql` retry loop -/

/-- `MAX_RETRIES` from `graphql` (line 43). -/
def maxRetries : Nat := 4

/-- One scripted HTTP response as `graphql` observes it after transport and
JSON parsing both succeed: the status code, the raw `Retry-After` header
value when present, and the parsed body. -/
structure ScriptedResponse where
  status : Nat
  retryAfter : Option String
  body : Json

/-- The error outcomes of `graphql`. `outOfScript` is the artifact of
running against a finite script: the loop wanted to issue another request
but the script had no response for it. -/
inductive GqlError where
  | graphqlErrors (errs : Json)
  | rateLimited
  | httpError (status : Nat) (body : Json)
  | outOfScript

/-- `StatusCode::is_success()`: 200..=299. -/
def statusIsSuccess (s : Nat) : Bool := 200 ≤ s && s ≤ 299

/-- `StatusCode::is_server_error()`: 500..=599. -/
def statusIsServerError (s : Nat) : Bool := 500 ≤ s && s ≤ 599

/-- Model of `str::parse::<u64>()`: an optional leading `+`, then one or
more ASCII digits, value within `u64` range. -/
def parseU64String (s : String) : Option Nat :=
  let ds := match s.data with
    | '+' :: rest => rest
    | cs => cs
  if !ds.isEmpty && ds.all (fun c => c.isDigit) then
    let n := ds.foldl (fun acc c => acc * 10 + (c.toNat - 48)) 0
    if n ≤ u64Max then some n else none
  else none

/-- The retry loop of `graphql` (lines 41-108) run against a scripted list of
responses, consumed in order.  `attempt` counts the attempts already made;
`waits` records every sleep performed so far, in milliseconds
(`Duration::from_secs` for the 429 branch, `Duration::from_millis` for the
5xx backoff).  Per iteration: a body with a top-level `errors` field fails
immediately; a success status returns the body; a 429 fails once
`maxRetries` attempts are used and otherwise sleeps for the parsed
`Retry-After` seconds (default 2) and retries; a 5xx with attempts remaining
sleeps for `250ms` saturating-doubled per attempt and retries; anything else
fails with the status and body. -/
def graphqlGo : List ScriptedResponse → Nat → List Nat →
    Except GqlError Json × List Nat
  | [], _, waits => (.error .outOfScript, waits)
  | resp :: rest, attempt, waits =>
    let attempt := attempt + 1
    match resp.body.get "errors" with
    | some errs => (.error (.graphqlErrors errs), waits)
    | none =>
      if statusIsSuccess resp.status then
        (.ok resp.body, waits)
      else if resp.status == 429 then
        if attempt ≥ maxRetries then
          (.error .rateLimited, waits)
        else
          let waitSecs := (resp.retryAfter.bind parseU64String).getD 2
          graphqlGo rest attempt (waits ++ [waitSecs * 1000])
      else if statusIsServerError resp.status && attempt < maxRetries then
        graphqlGo rest attempt (waits ++ [satMul 250 (2 ^ (attempt - 1))])
      else
        (.error (.httpError resp.status resp.body), waits)

/-- `graphql` on a fresh request: no attempts made, no sleeps yet. -/
def graphqlRun (script : List ScriptedResponse) :
    Except GqlError Json × List Nat :=
  graphqlGo script 0 []

/-! ### Count endpoints (`owned_repo_count`, `follower_count`,
`contributed_repos`, `commit_count`, `star_count`)

Each endpoint's response wrapper structs (`data`, `user`) are single-field
`Option` wrappers in the Rust source; they are flattened here to nested
`Option`s with identical serde behavior. -/

/-- `CountObj` (lines 10-14): required `totalCount: u64`. -/
structure CountObj where
  total_count : Nat
deriving DecidableEq, Repr

/-- serde decoder for `CountObj` (JSON key `totalCount`). -/
def decodeCountObj (j : Json) : Option CountObj :=
  match j with
  | .obj _ => do
    let tc ← decodeReqField j "totalCount" decodeU64
    pure ⟨tc⟩
  | _ => none

/-- serde decoding of the `user: Option<α>` wrapper struct shared by every
count endpoint. -/
def decodeUserField (decUser : Json → Option α) (dj : Json) :
    Option (Option α) :=
  match dj with
  | .obj _ => decodeOptField dj "user" decUser
  | _ => none

/-- serde decoding of the two-level `data: Option<{ user: Option<α> }>`
wrapper shared by every count endpoint. -/
def decodeDataUser (decUser : Json → Option α) (j : Json) :
    Option (Option (Option α)) :=
  match j with
  | .obj _ => decodeOptField j "data" (decodeUserField decUser)
  | _ => none

/-- serde decoder for a user object carrying a required `repositories`
count (`RepositoriesCount` of `owned_repo_count`, `ContribUser` of
`contributed_repos`). -/
def decodeUserRepositoriesCount (j : Json) : Option CountObj :=
  match j with
  | .obj _ => decodeReqField j "repositories" decodeCountObj
  | _ => none

/-- serde decoder for `FollowersUser`: required `followers` count. -/
def decodeFollowersUser (j : Json) : Option CountObj :=
  match j with
  | .obj _ => decodeReqField j "followers" decodeCountObj
  | _ => none

/-- `ContribCollection` of `commit_count`: required
`totalCommitContributions: u64`. -/
structure ContribCollection where
  total_commit_contributions : Nat
deriving DecidableEq, Repr

/-- serde decoder for `ContribCollection`. -/
def decodeContribCollection (j : Json) : Option ContribCollection :=
  match j with
  | .obj _ => do
    let t ← decodeReqField j "totalCommitContributions" decodeU64
    pure ⟨t⟩
  | _ => none

/-- serde decoder for `CommitsUser`: optional `contributionsCollection`. -/
def decodeCommitsUser (j : Json) : Option (Option ContribCollection) :=
  match j with
  | .obj _ => decodeOptField j "contributionsCollection" decodeContribCollection
  | _ => none

/-- `StarNode` of `star_count`: required `stargazers` count. -/
structure StarNode where
  stargazers : CountObj
deriving DecidableEq, Repr

/-- serde decoder for `StarNode`. -/
def decodeStarNode (j : Json) : Option StarNode :=
  match j with
  | .obj _ => do
    let sg ← decodeReqField j "stargazers" decodeCountObj
    pure ⟨sg⟩
  | _ => none

/-- `StarRepos` of `star_count`: optional list of `StarNode`s. -/
structure StarRepos where
  nodes : Option (List StarNode)
deriving DecidableEq, Repr

/-- serde decoder for `StarRepos`. -/
def decodeStarRepos (j : Json) : Option StarRepos :=
  match j with
  | .obj _ => do
    let nodes ← decodeOptField j "nodes" (decodeList decodeStarNode)
    pure ⟨nodes⟩
  | _ => none

/-- serde decoder for `StarUser`: required `repositories`. -/
def decodeStarUser (j : Json) : Option StarRepos :=
  match j with
  | .obj _ => decodeReqField j "repositories" decodeStarRepos
  | _ => none

/-- `owned_repo_count` (lines 111-148) after `graphql` succeeds: decode the
response, then `data.and_then(user).map(total_count).unwrap_or(0) as u32`.
`none` is the deserialization error path. -/
def ownedRepoCount (j : Json) : Option Nat :=
  (decodeDataUser decodeUserRepositoriesCount j).map (fun parsed =>
    u32cast (((parsed.bind id).map (fun r => r.total_count)).getD 0))

/-- `follower_count` (lines 206-243), same shape through the `followers`
count. -/
def followerCount (j : Json) : Option Nat :=
  (decodeDataUser decodeFollowersUser j).map (fun parsed =>
    u32cast (((parsed.bind id).map (fun r => r.total_count)).getD 0))

/-- `contributed_repos` (lines 246-286), same shape through the
`repositories` count. -/
def contributedRepos (j : Json) : Option Nat :=
  (decodeDataUser decodeUserRepositoriesCount j).map (fun parsed =>
    u32cast (((parsed.bind id).map (fun r => r.total_count)).getD 0))

/-- `commit_count` (lines 289-333):
`data.and_then(user).and_then(contributions_collection)
.map(total_commit_contributions).unwrap_or(0) as u32`. -/
def commitCount (j : Json) : Option Nat :=
  (decodeDataUser decodeCommitsUser j).map (fun parsed =>
    u32cast ((((parsed.bind id).bind id).map
      (fun c => c.total_commit_contributions)).getD 0))

/-- `star_count` (lines 336-390): sum the stargazer counts of the decoded
nodes with plain (non-saturating) `u64` addition — modelled with
release-mode two's-complement wrapping — then cast to `u32`. -/
def starCount (j : Json) : Option Nat :=
  (decodeDataUser decodeStarUser j).map (fun parsed =>
    let nodes := ((parsed.bind id).map (fun u => u.nodes)).getD none |>.getD []
    u32cast (nodes.foldl
      (fun total n => (total + n.stargazers.total_count) % 2 ^ 64) 0))

/-! ### The `total_loc` aggregator -/

/-- `total_loc` (lines 526-545): fetch the repository list (its failure
propagates), then for each repository take the per-repository outcome
`f r`; a success is saturating-added into the running total and a failure
is logged and skipped.  The aggregate is always returned. -/
def totalLoc (repoList : Except String (List String))
    (f : String → Except String LocStats) : Except String LocStats :=
  match repoList with
  | .error e => .error e
  | .ok repos =>
    .ok (repos.foldl (fun total r =>
      match f r with
      | .ok loc => combine total loc
      | .error _ => total) LocStats.zero)

/-! ### Concrete fixtures used by the witnesses and counterexamples -/

/-- A successful response body (no `errors` field). -/
def body200 : Json := .obj [("data", .str "ok")]

/-- An empty rate-limit response body. -/
def body429 : Json := .obj []

/-- A server-error response body. -/
def body500 : Json := .obj [("message", .str "server error")]

/-- A body whose top level carries an `errors` field. -/
def bodyErrors : Json := .obj [("errors", .arr [.str "bad query"])]

/-- A 429 response with `Retry-After: 1`. -/
def resp429 : ScriptedResponse := ⟨429, some "1", body429⟩

/-- A 200 success response. -/
def resp200 : ScriptedResponse := ⟨200, none, body200⟩

/-- A 500 server-error response. -/
def resp500 : ScriptedResponse := ⟨500, none, body500⟩

/-- A 200 response whose body carries an `errors` field. -/
def respErrors : ScriptedResponse := ⟨200, none, bodyErrors⟩

/-- A commit record authored by `alice` (10 additions, 3 deletions). -/
def nodeAlice : HistoryNode := ⟨some 10, some 3, some ⟨some ⟨some "alice"⟩⟩⟩

/-- A commit record authored by `bob` (7 additions, 1 deletion). -/
def nodeBob : HistoryNode := ⟨some 7, some 1, some ⟨some ⟨some "bob"⟩⟩⟩

/-- First scripted history page: two records, more pages follow. -/
def pageOne : CommitHistoryPage := ⟨⟨true, some "c1"⟩, some [nodeAlice, nodeBob]⟩

/-- Second scripted history page: one record, final page. -/
def pageTwo : CommitHistoryPage := ⟨⟨false, none⟩, some [nodeAlice]⟩

/-- An `owned_repo_count` response whose `totalCount` is a string: a type
mismatch at a count field. -/
def jsonTypeMismatch : Json :=
  .obj [("data", .obj [("user", .obj [("repositories",
    .obj [("totalCount", .str "many")])])])]

/-- An `owned_repo_count` response whose user object lacks the required
`repositories` field. -/
def jsonMissingRepositories : Json :=
  .obj [("data", .obj [("user", .obj [])])]

/-- A response with a `null` `data` field. -/
def jsonNullData : Json := .obj [("data", .null)]

/-- A response with a `null` `user` field. -/
def jsonNullUser : Json := .obj [("data", .obj [("user", .null)])]

/-- A `repo_loc` response whose `repository` is `null`, so the commit-history
container is absent. -/
def jsonMissingHistory : Json := .obj [("data", .obj [("repository", .null)])]

/-- A single final `repo_loc` history page whose only record omits
`additions`, has 4 `deletions`, and is authored by `alice`. -/
def jsonPageNoAdd : Json :=
  .obj [("data", .obj [("repository", .obj [("defaultBranchRef",
    .obj [("target", .obj [("history", .obj [
      ("pageInfo", .obj [("hasNextPage", .bool false), ("endCursor", .null)]),
      ("nodes", .arr [.obj [("deletions", .num 4),
        ("author", .obj [("user", .obj [("login", .str "alice")])])]])
    ])])])])])]

/-- Builder for a count-endpoint response carrying `totalCount = n` under
the given user field. -/
def mkCountJson (key : String) (n : Nat) : Json :=
  .obj [("data", .obj [("user", .obj [(key,
    .obj [("totalCount", .num n)])])])]

/-- Builder for a `commit_count` response carrying
`totalCommitContributions = n`. -/
def mkCommitJson (n : Nat) : Json :=
  .obj [("data", .obj [("user", .obj [("contributionsCollection",
    .obj [("totalCommitContributions", .num n)])])])]

/-- Builder for one `star_count` repository node carrying `c` stargazers. -/
def mkStarNodeJson (c : Nat) : Json :=
  .obj [("stargazers", .obj [("totalCount", .num c)])]

/-- Builder for a `star_count` response whose repositories carry the given
stargazer counts. -/
def mkStarJson (counts : List Nat) : Json :=
  .obj [("data", .obj [("user", .obj [("repositories", .obj [("nodes",
    .arr (counts.map mkStarNodeJson))])])])]

/-! ### Helper lemmas -/

theorem satAdd_comm (a b : Nat) : satAdd a b = satAdd b a := by
  unfold satAdd
  omega

theorem satAdd_assoc (a b c : Nat) :
    satAdd (satAdd a b) c = satAdd a (satAdd b c) := by
  unfold satAdd
  omega

theorem satAdd_le_max (a b : Nat) : satAdd a b ≤ u64Max := by
  unfold satAdd
  omega

theorem le_satAdd_left (a b : Nat) (h : a ≤ u64Max) : a ≤ satAdd a b := by
  unfold satAdd
  omega

theorem le_satAdd_right (a b : Nat) (h : b ≤ u64Max) : b ≤ satAdd a b := by
  unfold satAdd
  omega

theorem processNode_valid (username : String) (stats : LocStats)
    (node : HistoryNode) (h : stats.valid) :
    (processNode username stats node).valid := by
  unfold processNode
  split
  · exact ⟨satAdd_le_max _ _, satAdd_le_max _ _, satAdd_le_max _ _⟩
  · exact h

theorem processNode_mono (username : String) (stats : LocStats)
    (node : HistoryNode) (h : stats.valid) :
    stats.additions ≤ (processNode username stats node).additions ∧
    stats.deletions ≤ (processNode username stats node).deletions ∧
    stats.commits ≤ (processNode username stats node).commits := by
  obtain ⟨h1, h2, h3⟩ := h
  unfold processNode
  split
  · exact ⟨le_satAdd_left _ _ h1, le_satAdd_left _ _ h2, le_satAdd_left _ _ h3⟩
  · exact ⟨le_rfl, le_rfl, le_rfl⟩

theorem foldl_processNode_valid_mono (username : String) :
    ∀ (nodes : List HistoryNode) (stats : LocStats), stats.valid →
      (nodes.foldl (processNode username) stats).valid ∧
      stats.additions ≤ (nodes.foldl (processNode username) stats).additions ∧
      stats.deletions ≤ (nodes.foldl (processNode username) stats).deletions ∧
      stats.commits ≤ (nodes.foldl (processNode username) stats).commits := by
  intro nodes
  induction nodes with
  | nil => exact fun stats h => ⟨h, le_rfl, le_rfl, le_rfl⟩
  | cons n ns ih =>
    intro stats h
    have hv := processNode_valid username stats n h
    have hm := processNode_mono username stats n h
    have := ih (processNode username stats n) hv
    rw [List.foldl_cons]
    exact ⟨this.1, hm.1.trans this.2.1, hm.2.1.trans this.2.2.1,
      hm.2.2.trans this.2.2.2⟩

theorem foldl_totalLoc_eq (f : String → Except String LocStats) :
    ∀ (repos : List String) (acc : LocStats),
      repos.foldl (fun total r =>
        match f r with
        | .ok loc => combine total loc
        | .error _ => total) acc =
      (repos.filterMap (fun r => (f r).toOption)).foldl combine acc := by
  intro repos
  induction repos with
  | nil => intro acc; rfl
  | cons r rs ih =>
    intro acc
    cases h : f r with
    | ok loc =>
      simp only [List.foldl_cons, List.filterMap_cons, h, Except.toOption]
      exact ih _
    | error e =>
      simp only [List.foldl_cons, List.filterMap_cons, h, Except.toOption]
      exact ih _

/-- C7: `LocStats` combination by per-field saturating addition is
commutative and associative, so aggregating any multiset of per-repository
`LocStats` in any order yields the same totals. -/
theorem combine_comm_assoc (a b c : LocStats) :
    combine a b = combine b a ∧
    combine (combine a b) c = combine a (combine b c) := by
  obtain ⟨a1, a2, a3⟩ := a
  obtain ⟨b1, b2, b3⟩ := b
  obtain ⟨c1, c2, c3⟩ := c
  refine ⟨?_, ?_⟩ <;> simp only [combine, LocStats.mk.injEq]
  · exact ⟨satAdd_comm _ _, satAdd_comm _ _, satAdd_comm _ _⟩
  · exact ⟨satAdd_assoc _ _ _, satAdd_assoc _ _ _, satAdd_assoc _ _ _⟩

/-- C8: the `LocStats` counters are monotonically non-decreasing under the
saturating updates of `repo_loc` (`processNode`, `processPage`) and
`total_loc` (`combine`), and saturating addition of `u64`-representable
operands never returns a value smaller than either operand and never
leaves the representable range. -/
theorem locStats_saturating_monotone (a b : Nat) (username : String)
    (stats total loc : LocStats) (node : HistoryNode)
    (page : CommitHistoryPage) (ha : a ≤ u64Max) (hb : b ≤ u64Max)
    (hstats : stats.valid) (htotal : total.valid) :
    (a ≤ satAdd a b ∧ b ≤ satAdd a b ∧ satAdd a b ≤ u64Max) ∧
    (stats.additions ≤ (processNode username stats node).additions ∧
     stats.deletions ≤ (processNode username stats node).deletions ∧
     stats.commits ≤ (processNode username stats node).commits) ∧
    (stats.additions ≤ (processPage username stats page).additions ∧
     stats.deletions ≤ (processPage username stats page).deletions ∧
     stats.commits ≤ (processPage username stats page).commits) ∧
    (total.additions ≤ (combine total loc).additions ∧
     total.deletions ≤ (combine total loc).deletions ∧
     total.commits ≤ (combine total loc).commits) := by
  obtain ⟨h1, h2, h3⟩ := htotal
  refine ⟨⟨le_satAdd_left a b ha, le_satAdd_right a b hb, satAdd_le_max a b⟩,
    processNode_mono username stats node hstats, ?_, ?_⟩
  · have h := foldl_processNode_valid_mono username (page.nodes.getD [])
      stats hstats
    exact ⟨h.2.1, h.2.2.1, h.2.2.2⟩
  · exact ⟨le_satAdd_left _ _ h1, le_satAdd_left _ _ h2, le_satAdd_left _ _ h3⟩

/-- Witness for C8 at concrete inputs. -/
theorem locStats_saturating_monotone_witness :
    ((3 : Nat) ≤ satAdd 3 5 ∧ (5 : Nat) ≤ satAdd 3 5 ∧ satAdd 3 5 ≤ u64Max) ∧
    (LocStats.zero.additions ≤
        (processNode "alice" LocStats.zero nodeAlice).additions ∧
     LocStats.zero.deletions ≤
        (processNode "alice" LocStats.zero nodeAlice).deletions ∧
     LocStats.zero.commits ≤
        (processNode "alice" LocStats.zero nodeAlice).commits) ∧
    (LocStats.zero.additions ≤
        (processPage "alice" LocStats.zero pageTwo).additions ∧
     LocStats.zero.deletions ≤
        (processPage "alice" LocStats.zero pageTwo).deletions ∧
     LocStats.zero.commits ≤
        (processPage "alice" LocStats.zero pageTwo).commits) ∧
    (LocStats.zero.additions ≤
        (combine LocStats.zero (LocStats.mk 1 2 3)).additions ∧
     LocStats.zero.deletions ≤
        (combine LocStats.zero (LocStats.mk 1 2 3)).deletions ∧
     LocStats.zero.commits ≤
        (combine LocStats.zero (LocStats.mk 1 2 3)).commits) :=
  locStats_saturating_monotone 3 5 "alice" LocStats.zero LocStats.zero
    (LocStats.mk 1 2 3) nodeAlice pageTwo (by decide) (by decide)
    (by exact ⟨by decide, by decide, by decide⟩)
    (by exact ⟨by decide, by decide, by decide⟩)

/-- C6: `total_loc` attempts every repository in the fetched list, a
per-repository failure is skipped rather than propagated, and the aggregate
is exactly the saturating combination of the `LocStats` of the repositories
whose fetch succeeded; the result is always `ok` once the name list was
fetched. -/
theorem totalLoc_isolates_failures (repos : List String)
    (f : String → Except String LocStats) :
    totalLoc (.ok repos) f =
      .ok ((repos.filterMap (fun r => (f r).toOption)).foldl combine
        LocStats.zero) :=
  congrArg Except.ok (foldl_totalLoc_eq f repos LocStats.zero)

theorem foldl_processNode_commits (username : String) :
    ∀ (nodes : List HistoryNode) (stats : LocStats),
      stats.commits ≤ u64Max →
      (nodes.foldl (processNode username) stats).commits =
        min (stats.commits + countMatching username nodes) u64Max := by
  intro nodes
  induction nodes with
  | nil =>
    intro stats h
    simp only [List.foldl_nil, countMatching, List.countP_nil]
    omega
  | cons n ns ih =>
    intro stats h
    rw [List.foldl_cons]
    by_cases hm : (authorLogin n == username) = true
    · have hstep : processNode username stats n =
          ⟨satAdd stats.additions (n.additions.getD 0),
           satAdd stats.deletions (n.deletions.getD 0),
           satAdd stats.commits 1⟩ := by
        simp [processNode, hm]
      rw [hstep, ih _ (satAdd_le_max _ _)]
      unfold countMatching
      rw [List.countP_cons]
      simp only [hm, if_true]
      unfold satAdd u64Max
      omega
    · have hstep : processNode username stats n = stats := by
        simp [processNode, hm]
      rw [hstep, ih _ h]
      unfold countMatching
      rw [List.countP_cons]
      simp [hm]

theorem repoLocPages_cons (username : String) (p : CommitHistoryPage)
    (rest : List CommitHistoryPage) (stats : LocStats) (cur : Option String) :
    repoLocPages username (p :: rest) stats cur =
      (if p.page_info.has_next_page then
        repoLocPages username rest (processPage username stats p)
          p.page_info.end_cursor
      else some (processPage username stats p)) :=
  rfl

theorem repoLocPages_run (username : String) :
    ∀ (pages : List CommitHistoryPage) (stats : LocStats) (cur : Option String),
      isTerminalSeq pages = true → stats.commits ≤ u64Max →
      ∃ s, repoLocPages username pages stats cur = some s ∧
        s.commits =
          min (stats.commits + countMatching username (pagesNodes pages))
            u64Max := by
  intro pages
  induction pages with
  | nil =>
    intro stats cur h
    exact absurd h (by simp [isTerminalSeq])
  | cons p rest ih =>
    intro stats cur hterm hc
    cases rest with
    | nil =>
      have hnp : p.page_info.has_next_page = false := by
        simpa [isTerminalSeq] using hterm
      have hstep := foldl_processNode_commits username (p.nodes.getD []) stats hc
      refine ⟨processPage username stats p, ?_, ?_⟩
      · rw [repoLocPages_cons, hnp]
        simp
      · rw [processPage, hstep]
        simp [pagesNodes, countMatching]
    | cons q rest2 =>
      have hsplit : p.page_info.has_next_page = true ∧
          isTerminalSeq (q :: rest2) = true := by
        simpa [isTerminalSeq] using hterm
      obtain ⟨hnp, hrest⟩ := hsplit
      have hstep := foldl_processNode_commits username (p.nodes.getD []) stats hc
      have hvalid : (processPage username stats p).commits ≤ u64Max := by
        rw [processPage, hstep]
        omega
      obtain ⟨s, hs, hcommits⟩ :=
        ih (processPage username stats p) p.page_info.end_cursor hrest hvalid
      refine ⟨s, ?_, ?_⟩
      · rw [repoLocPages_cons, hnp]
        simpa using hs
      · rw [hcommits, processPage, hstep,
          show pagesNodes (p :: q :: rest2) =
            p.nodes.getD [] ++ pagesNodes (q :: rest2) from rfl]
        unfold countMatching
        rw [List.countP_append]
        omega

/-- C1: over any terminating sequence of decoded commit-history pages, the
commit count accumulated by the `repo_loc` loop equals the number of commit
records across all pages combined whose author login exactly equals the
queried username (whenever that number is `u64`-representable), regardless
of how the records are split across page boundaries; a record with a
different author login leaves the accumulator unchanged. -/
theorem repoLoc_counts_matching_commits (username : String)
    (pages : List CommitHistoryPage) (hterm : isTerminalSeq pages = true)
    (hrange : countMatching username (pagesNodes pages) ≤ u64Max) :
    (∃ s, repoLocPages username pages LocStats.zero none = some s ∧
      s.commits = countMatching username (pagesNodes pages)) ∧
    (∀ (stats : LocStats) (node : HistoryNode),
      (authorLogin node == username) = false →
      processNode username stats node = stats) := by
  constructor
  · obtain ⟨s, hs, hc⟩ := repoLocPages_run username pages LocStats.zero none
      hterm (Nat.zero_le _)
    refine ⟨s, hs, ?_⟩
    rw [hc]
    show min (0 + _) u64Max = _
    omega
  · intro stats node h
    simp [processNode, h]

/-- Witness for C1: three matching records split 2 + 1 across two pages. -/
theorem repoLoc_counts_matching_commits_witness :
    (∃ s, repoLocPages "alice" [pageOne, pageTwo] LocStats.zero none =
        some s ∧
      s.commits = countMatching "alice" (pagesNodes [pageOne, pageTwo])) ∧
    (∀ (stats : LocStats) (node : HistoryNode),
      (authorLogin node == "alice") = false →
      processNode "alice" stats node = stats) :=
  repoLoc_counts_matching_commits "alice" [pageOne, pageTwo] (by decide)
    (by decide)

/-- C9: for every page sequence in which the next-cursor is present whenever
has-more is true and the server eventually reports has-more = false, the
paging loop of `repo_loc` terminates with the accumulated `LocStats`; no
client-side bound on the number of pages is imposed (the sequence is of
arbitrary length). -/
theorem repoLoc_pages_terminate (username : String)
    (pages : List CommitHistoryPage) (init : LocStats) (cur : Option String)
    (hcur : ∀ p ∈ pages, p.page_info.has_next_page = true →
      p.page_info.end_cursor ≠ none)
    (hdone : ∃ p ∈ pages, p.page_info.has_next_page = false) :
    ∃ s, repoLocPages username pages init cur = some s := by
  induction pages generalizing init cur with
  | nil =>
    obtain ⟨p, hp, _⟩ := hdone
    exact absurd hp (List.not_mem_nil p)
  | cons p rest ih =>
    by_cases hnp : p.page_info.has_next_page = true
    · have hdone2 : ∃ q ∈ rest, q.page_info.has_next_page = false := by
        obtain ⟨q, hq, hfalse⟩ := hdone
        rcases List.mem_cons.mp hq with hq | hq
        · rw [hq] at hfalse
          rw [hfalse] at hnp
          exact absurd hnp (by simp)
        · exact ⟨q, hq, hfalse⟩
      have hcur2 : ∀ q ∈ rest, q.page_info.has_next_page = true →
          q.page_info.end_cursor ≠ none :=
        fun q hq => hcur q (List.mem_cons_of_mem p hq)
      obtain ⟨s, hs⟩ := ih (processPage username init p)
        p.page_info.end_cursor hcur2 hdone2
      refine ⟨s, ?_⟩
      rw [repoLocPages_cons, hnp]
      simpa using hs
    · refine ⟨processPage username init p, ?_⟩
      rw [repoLocPages_cons, Bool.not_eq_true _ |>.mp hnp]
      simp

/-- Witness for C9 at a concrete two-page sequence. -/
theorem repoLoc_pages_terminate_witness :
    ∃ s, repoLocPages "alice" [pageOne, pageTwo] LocStats.zero none =
      some s :=
  repoLoc_pages_terminate "alice" [pageOne, pageTwo] LocStats.zero none
    (by decide) (by decide)

theorem graphqlGo_cons (resp : ScriptedResponse)
    (rest : List ScriptedResponse) (attempt : Nat) (waits : List Nat) :
    graphqlGo (resp :: rest) attempt waits =
      (match resp.body.get "errors" with
      | some errs => (.error (.graphqlErrors errs), waits)
      | none =>
        if statusIsSuccess resp.status then
          (.ok resp.body, waits)
        else if resp.status == 429 then
          if attempt + 1 ≥ maxRetries then
            (.error .rateLimited, waits)
          else
            graphqlGo rest (attempt + 1)
              (waits ++ [((resp.retryAfter.bind parseU64String).getD 2) * 1000])
        else if statusIsServerError resp.status && attempt + 1 < maxRetries then
          graphqlGo rest (attempt + 1) (waits ++ [satMul 250 (2 ^ attempt)])
        else
          (.error (.httpError resp.status resp.body), waits)) :=
  rfl

/-- C3: whenever the decoded body carries a top-level `errors` field —
whatever the HTTP status, 200 included — `graphql` fails with an
application error on the very response that carried it, performing no
further sleep and consuming no further scripted response. -/
theorem graphql_errors_fail_immediately (resp : ScriptedResponse)
    (rest : List ScriptedResponse) (attempt : Nat) (waits : List Nat)
    (errs : Json) (h : resp.body.get "errors" = some errs) :
    graphqlGo (resp :: rest) attempt waits =
      (.error (.graphqlErrors errs), waits) := by
  rw [graphqlGo_cons, h]

/-- Witness for C3: a 200 response whose body carries `errors`. -/
theorem graphql_errors_fail_immediately_witness :
    graphqlGo [respErrors] 0 [] =
      (.error (.graphqlErrors (Json.arr [Json.str "bad query"])), []) :=
  graphql_errors_fail_immediately respErrors [] 0 [] _ rfl

/-- C2: on a 429 response, `graphql` fails with a rate-limit error when the
budget of `maxRetries = 4` total attempts is exhausted, and otherwise sleeps
for the `Retry-After` duration — 2 seconds when the header is absent or
unparsable — and retries; on the scripted sequence [429, 429, 200-success]
it returns the success body after exactly 2 waits. -/
theorem graphql_rate_limit_policy :
    (∀ (resp : ScriptedResponse) (rest : List ScriptedResponse)
        (attempt : Nat) (waits : List Nat),
      resp.status = 429 → resp.body.get "errors" = none →
      (attempt + 1 ≥ maxRetries →
        graphqlGo (resp :: rest) attempt waits =
          (.error .rateLimited, waits)) ∧
      (attempt + 1 < maxRetries →
        graphqlGo (resp :: rest) attempt waits =
          graphqlGo rest (attempt + 1)
            (waits ++
              [((resp.retryAfter.bind parseU64String).getD 2) * 1000])) ∧
      (attempt + 1 < maxRetries → resp.retryAfter = none →
        graphqlGo (resp :: rest) attempt waits =
          graphqlGo rest (attempt + 1) (waits ++ [2000])) ∧
      (∀ s, attempt + 1 < maxRetries → resp.retryAfter = some s →
        parseU64String s = none →
        graphqlGo (resp :: rest) attempt waits =
          graphqlGo rest (attempt + 1) (waits ++ [2000]))) ∧
    graphqlRun [resp429, resp429, resp200] = (.ok body200, [1000, 1000]) := by
  refine ⟨?_, rfl⟩
  intro resp rest attempt waits h429 herr
  have h1 : statusIsSuccess 429 = false := rfl
  have h2 : ((429 : Nat) == 429) = true := rfl
  refine ⟨fun hge => ?_, fun hlt => ?_, fun hlt hnone => ?_,
    fun s hlt hsome hbad => ?_⟩
  · rw [graphqlGo_cons, herr, h429, h1, h2, if_neg (by simp), if_pos rfl,
      if_pos hge]
  · rw [graphqlGo_cons, herr, h429, h1, h2, if_neg (by simp), if_pos rfl,
      if_neg (by omega)]
  · rw [graphqlGo_cons, herr, h429, h1, h2, if_neg (by simp), if_pos rfl,
      if_neg (by omega), hnone]
    rfl
  · rw [graphqlGo_cons, herr, h429, h1, h2, if_neg (by simp), if_pos rfl,
      if_neg (by omega), hsome]
    simp [hbad]

/-- Witness for C2: the 4th attempt against a 429 is a rate-limit error. -/
theorem graphql_rate_limit_policy_witness :
    graphqlGo [resp429] 3 [] = (.error .rateLimited, []) :=
  (graphql_rate_limit_policy.1 resp429 [] 3 [] rfl rfl).1 (by decide)

/-- C4: on a 5xx response with attempts remaining in the 4-attempt budget,
`graphql` sleeps for an exponentially increasing backoff (250ms doubled per
attempt) and retries, and fails with an error carrying the status and body
once the budget is exhausted; on [500, 500, 500, 500, 500] it fails after
exactly 4 attempts, having slept 250ms, 500ms and 1000ms. -/
theorem graphql_server_error_policy :
    (∀ (resp : ScriptedResponse) (rest : List ScriptedResponse)
        (attempt : Nat) (waits : List Nat),
      statusIsServerError resp.status = true →
      resp.body.get "errors" = none →
      (attempt + 1 < maxRetries →
        graphqlGo (resp :: rest) attempt waits =
          graphqlGo rest (attempt + 1)
            (waits ++ [satMul 250 (2 ^ attempt)])) ∧
      (attempt + 1 ≥ maxRetries →
        graphqlGo (resp :: rest) attempt waits =
          (.error (.httpError resp.status resp.body), waits))) ∧
    graphqlRun [resp500, resp500, resp500, resp500, resp500] =
      (.error (.httpError 500 body500), [250, 500, 1000]) := by
  refine ⟨?_, rfl⟩
  intro resp rest attempt waits h5xx herr
  have hs : 500 ≤ resp.status ∧ resp.status ≤ 599 := by
    simpa [statusIsServerError] using h5xx
  have hsucc : statusIsSuccess resp.status = false := by
    simp only [statusIsSuccess]
    simp only [Bool.and_eq_false_iff, decide_eq_false_iff_not]
    omega
  have h429f : (resp.status == 429) = false := by
    simp only [beq_eq_false_iff_ne, ne_eq]
    omega
  refine ⟨fun hlt => ?_, fun hge => ?_⟩
  · rw [graphqlGo_cons, herr, hsucc, if_neg (by simp), h429f,
      if_neg (by simp), h5xx, if_pos (by simpa using hlt)]
  · rw [graphqlGo_cons, herr, hsucc, if_neg (by simp), h429f,
      if_neg (by simp), h5xx, if_neg (by simp; omega)]

/-- Witness for C4: the 4th attempt against a 500 carries status and body. -/
theorem graphql_server_error_policy_witness :
    graphqlGo [resp500] 3 [] = (.error (.httpError 500 body500), []) :=
  (graphql_server_error_policy.1 resp500 [] 3 [] rfl rfl).2 (by decide)

/-- C5 counterexample: the claim predicts that a type-mismatched or absent
required field is treated as 0, so that `owned_repo_count` would return 0;
the decoder instead fails.  `jsonTypeMismatch` carries `totalCount: "many"`
and `jsonMissingRepositories` a user object without `repositories`. -/
theorem decoder_mismatch_counterexample :
    (ownedRepoCount jsonTypeMismatch = none ∧
      ownedRepoCount jsonTypeMismatch ≠ some 0) ∧
    (ownedRepoCount jsonMissingRepositories = none ∧
      ownedRepoCount jsonMissingRepositories ≠ some 0) := by
  have h1 : ownedRepoCount jsonTypeMismatch = none := rfl
  have h2 : ownedRepoCount jsonMissingRepositories = none := rfl
  refine ⟨⟨h1, ?_⟩, ⟨h2, ?_⟩⟩
  · intro h
    rw [h1] at h
    exact Option.noConfusion h
  · intro h
    rw [h2] at h
    exact Option.noConfusion h

/-- C5 amended: absent or `null` fields at `Option`-typed positions default
to the zero value — a commit record omitting `additions` contributes 0 to
additions while still incrementing the commit count when the author
matches, and a `null` `data` or `user` yields count 0 — while a
type-mismatched field (or an absent required field) raises a decode error,
and an absent commit-history root container makes `repo_loc` fail. -/
theorem decoder_defaulting_amended :
    repoLocRunJson "alice" [jsonPageNoAdd] LocStats.zero =
      .ok (LocStats.mk 0 4 1) ∧
    followerCount jsonNullData = some 0 ∧
    ownedRepoCount jsonNullUser = some 0 ∧
    repoLocRunJson "alice" [jsonMissingHistory] LocStats.zero =
      .error .missingHistory ∧
    ownedRepoCount jsonTypeMismatch = none :=
  ⟨rfl, rfl, rfl, rfl, rfl⟩

theorem decodeU64_ofNat (n : Nat) (h : n < 2 ^ 64) :
    decodeU64 (Json.num n) = some n := by
  simp only [decodeU64]
  rw [if_pos ⟨Int.natCast_nonneg n, by exact_mod_cast h⟩]
  simp

theorem json_get_single (k : String) (v : Json) :
    Json.get (Json.obj [(k, v)]) k = some v := by
  simp [Json.get, List.lookup]

theorem decodeReqField_single (k : String) (v : Json)
    (dec : Json → Option α) :
    decodeReqField (Json.obj [(k, v)]) k dec = dec v := by
  unfold decodeReqField
  rw [json_get_single]
  rfl

theorem decodeOptField_obj (k : String) (fields : List (String × Json))
    (dec : Json → Option α) :
    decodeOptField (Json.obj [(k, Json.obj fields)]) k dec =
      (dec (Json.obj fields)).map some := by
  unfold decodeOptField
  rw [json_get_single]

theorem decodeOptField_arr (k : String) (elems : List Json)
    (dec : Json → Option α) :
    decodeOptField (Json.obj [(k, Json.arr elems)]) k dec =
      (dec (Json.arr elems)).map some := by
  unfold decodeOptField
  rw [json_get_single]

theorem decodeCountObj_num (n : Nat) (h : n < 2 ^ 64) :
    decodeCountObj (Json.obj [("totalCount", Json.num n)]) = some ⟨n⟩ := by
  show (decodeReqField (Json.obj [("totalCount", Json.num (n : Int))])
    "totalCount" decodeU64).bind (fun tc => some (CountObj.mk tc)) = some ⟨n⟩
  rw [decodeReqField_single, decodeU64_ofNat n h, Option.some_bind]

theorem decodeStarNode_mk (c : Nat) (h : c < 2 ^ 64) :
    decodeStarNode (mkStarNodeJson c) = some ⟨⟨c⟩⟩ := by
  show (decodeReqField (Json.obj [("stargazers",
      Json.obj [("totalCount", Json.num (c : Int))])]) "stargazers"
    decodeCountObj).bind (fun sg => some (StarNode.mk sg)) = some ⟨⟨c⟩⟩
  rw [decodeReqField_single, decodeCountObj_num c h, Option.some_bind]

theorem decodeElems_starNodes (counts : List Nat)
    (hc : ∀ c ∈ counts, c < 2 ^ 64) :
    decodeElems decodeStarNode (counts.map mkStarNodeJson) =
      some (counts.map (fun c => StarNode.mk ⟨c⟩)) := by
  induction counts with
  | nil => rfl
  | cons c cs ih =>
    have h1 := decodeStarNode_mk c (hc c (List.mem_cons_self c cs))
    have h2 := ih (fun x hx => hc x (List.mem_cons_of_mem c hx))
    rw [List.map_cons, List.map_cons]
    simp [decodeElems, h1, h2]

theorem foldl_wrap_add (counts : List Nat) :
    ∀ acc, acc < 2 ^ 64 →
      counts.foldl (fun t c => (t + c) % 2 ^ 64) acc =
        (acc + counts.sum) % 2 ^ 64 := by
  induction counts with
  | nil =>
    intro acc h
    simp only [List.foldl_nil, List.sum_nil]
    omega
  | cons c cs ih =>
    intro acc h
    rw [List.foldl_cons, ih _ (Nat.mod_lt _ (by norm_num)), Nat.mod_add_mod,
      List.sum_cons, Nat.add_assoc]

theorem decodeDataUser_obj (decUser : Json → Option α)
    (fields : List (String × Json)) :
    decodeDataUser decUser (Json.obj fields) =
      decodeOptField (Json.obj fields) "data" (decodeUserField decUser) :=
  rfl

theorem decodeUserField_obj (decUser : Json → Option α)
    (fields : List (String × Json)) :
    decodeUserField decUser (Json.obj fields) =
      decodeOptField (Json.obj fields) "user" decUser :=
  rfl

theorem decodeDataUser_single (decUser : Json → Option α)
    (fields : List (String × Json)) :
    decodeDataUser decUser (Json.obj [("data",
      Json.obj [("user", Json.obj fields)])]) =
      ((decUser (Json.obj fields)).map some).map some := by
  rw [decodeDataUser_obj, decodeOptField_obj, decodeUserField_obj,
    decodeOptField_obj]

theorem decodeUserRepositoriesCount_obj (fields : List (String × Json)) :
    decodeUserRepositoriesCount (Json.obj fields) =
      decodeReqField (Json.obj fields) "repositories" decodeCountObj :=
  rfl

theorem decodeFollowersUser_obj (fields : List (String × Json)) :
    decodeFollowersUser (Json.obj fields) =
      decodeReqField (Json.obj fields) "followers" decodeCountObj :=
  rfl

theorem decodeCommitsUser_obj (fields : List (String × Json)) :
    decodeCommitsUser (Json.obj fields) =
      decodeOptField (Json.obj fields) "contributionsCollection"
        decodeContribCollection :=
  rfl

theorem decodeStarUser_obj (fields : List (String × Json)) :
    decodeStarUser (Json.obj fields) =
      decodeReqField (Json.obj fields) "repositories" decodeStarRepos :=
  rfl

theorem decodeContribCollection_num (n : Nat) (h : n < 2 ^ 64) :
    decodeContribCollection (Json.obj [("totalCommitContributions",
      Json.num n)]) = some ⟨n⟩ := by
  show (decodeReqField (Json.obj [("totalCommitContributions",
    Json.num (n : Int))]) "totalCommitContributions" decodeU64).bind
    (fun t => some (ContribCollection.mk t)) = some ⟨n⟩
  rw [decodeReqField_single, decodeU64_ofNat n h, Option.some_bind]

theorem decodeStarRepos_arr (elems : List Json) (ns : List StarNode)
    (h : decodeElems decodeStarNode elems = some ns) :
    decodeStarRepos (Json.obj [("nodes", Json.arr elems)]) =
      some ⟨some ns⟩ := by
  show (decodeOptField (Json.obj [("nodes", Json.arr elems)]) "nodes"
    (decodeList decodeStarNode)).bind (fun nodes => some (StarRepos.mk nodes))
    = some ⟨some ns⟩
  rw [decodeOptField_arr,
    show decodeList decodeStarNode (Json.arr elems) =
      decodeElems decodeStarNode elems from rfl, h]
  rfl

/-- C10: every count endpoint decodes the server count as a `u64` and
returns it truncated to 32 bits, so a total above `u32::MAX` comes back
reduced modulo `2^32`; `star_count` first sums the per-repository stargazer
counts with plain (wrapping, non-saturating) `u64` addition and then
truncates. -/
theorem count_endpoints_truncate_u32 (n : Nat) (hn : n < 2 ^ 64)
    (counts : List Nat) (hc : ∀ c ∈ counts, c < 2 ^ 64) :
    ownedRepoCount (mkCountJson "repositories" n) = some (n % 2 ^ 32) ∧
    followerCount (mkCountJson "followers" n) = some (n % 2 ^ 32) ∧
    contributedRepos (mkCountJson "repositories" n) = some (n % 2 ^ 32) ∧
    commitCount (mkCommitJson n) = some (n % 2 ^ 32) ∧
    starCount (mkStarJson counts) = some (counts.sum % 2 ^ 32) := by
  have hcount := decodeCountObj_num n hn
  refine ⟨?_, ?_, ?_, ?_, ?_⟩
  · unfold ownedRepoCount
    rw [show mkCountJson "repositories" n = Json.obj [("data",
      Json.obj [("user", Json.obj [("repositories",
        Json.obj [("totalCount", Json.num (n : Int))])])])] from rfl]
    rw [decodeDataUser_single, decodeUserRepositoriesCount_obj,
      decodeReqField_single, hcount]
    simp [u32cast]
  · unfold followerCount
    rw [show mkCountJson "followers" n = Json.obj [("data",
      Json.obj [("user", Json.obj [("followers",
        Json.obj [("totalCount", Json.num (n : Int))])])])] from rfl]
    rw [decodeDataUser_single, decodeFollowersUser_obj,
      decodeReqField_single, hcount]
    simp [u32cast]
  · unfold contributedRepos
    rw [show mkCountJson "repositories" n = Json.obj [("data",
      Json.obj [("user", Json.obj [("repositories",
        Json.obj [("totalCount", Json.num (n : Int))])])])] from rfl]
    rw [decodeDataUser_single, decodeUserRepositoriesCount_obj,
      decodeReqField_single, hcount]
    simp [u32cast]
  · unfold commitCount
    rw [show mkCommitJson n = Json.obj [("data",
      Json.obj [("user", Json.obj [("contributionsCollection",
        Json.obj [("totalCommitContributions",
          Json.num (n : Int))])])])] from rfl]
    rw [decodeDataUser_single, decodeCommitsUser_obj, decodeOptField_obj,
      decodeContribCollection_num n hn]
    simp [u32cast]
  · unfold starCount
    rw [show mkStarJson counts = Json.obj [("data",
      Json.obj [("user", Json.obj [("repositories", Json.obj [("nodes",
        Json.arr (counts.map mkStarNodeJson))])])])] from rfl]
    rw [decodeDataUser_single, decodeStarUser_obj, decodeReqField_single,
      decodeStarRepos_arr _ _ (decodeElems_starNodes counts hc)]
    simp only [Option.map_some', Option.some_bind, id_eq, Option.getD_some]
    rw [List.foldl_map]
    dsimp only
    rw [foldl_wrap_add counts 0 (by norm_num), Nat.zero_add, u32cast,
      Nat.mod_mod_of_dvd _ (by norm_num : (2 : Nat) ^ 32 ∣ 2 ^ 64)]

/-- Witness for C10: a count of `2^32 + 5` comes back as 5, and stargazer
counts `[2^63, 2^63, 7]` wrap to 7. -/
theorem count_endpoints_truncate_u32_witness :
    ownedRepoCount (mkCountJson "repositories" (2 ^ 32 + 5)) =
      some ((2 ^ 32 + 5) % 2 ^ 32) ∧
    followerCount (mkCountJson "followers" (2 ^ 32 + 5)) =
      some ((2 ^ 32 + 5) % 2 ^ 32) ∧
    contributedRepos (mkCountJson "repositories" (2 ^ 32 + 5)) =
      some ((2 ^ 32 + 5) % 2 ^ 32) ∧
    commitCount (mkCommitJson (2 ^ 32 + 5)) = some ((2 ^ 32 + 5) % 2 ^ 32) ∧
    starCount (mkStarJson [2 ^ 63, 2 ^ 63, 7]) =
      some (([2 ^ 63, 2 ^ 63, 7] : List Nat).sum % 2 ^ 32) :=
  count_endpoints_truncate_u32 (2 ^ 32 + 5) (by norm_num)
    [2 ^ 63, 2 ^ 63, 7] (by decide)
